import Mathlib

/-!
Shallow embedding of the command-resolution and invitation engine of
`slack_message_spam_bot/bot.py`.

Strings from the Python source are modelled as lists of characters
(`Str := List Char`); Python text primitives (`strip`, `upper`, `lower`,
`startswith`, `lstrip`, `split`, `join`, `sorted`) are given executable
definitions that mirror their behaviour on the ASCII inputs the bot
manipulates.  Remote Slack primitives (channel listing, `users.info`,
`conversations.info`, `conversations.join`, `conversations.invite`) are
modelled as explicit function parameters, and the process-wide caches as
explicit association-list arguments, so every definition is executable
and the theorems quantify over all behaviours of the remote side.
-/

namespace SlackAdder

/-- Python strings, modelled as lists of characters. -/
abbrev Str := List Char

/-- Conversion from Lean string literals, used for the fixed message texts. -/
def str (s : String) : Str := s.data

/-- Whitespace test used by Python `str.strip` (ASCII whitespace). -/
def pyIsSpace (c : Char) : Bool :=
  c = ' ' ∨ c = '\t' ∨ c = '\n' ∨ c = '\r' ∨ c = '\x0b' ∨ c = '\x0c'

/-- Python `str.strip()`: drop leading and trailing whitespace. -/
def pyStrip (s : Str) : Str :=
  ((s.dropWhile pyIsSpace).reverse.dropWhile pyIsSpace).reverse

/-- Python `str.upper()` on one character (ASCII range, which is all the
bot's token alphabet uses). -/
def pyUpperChar (c : Char) : Char :=
  if 'a' ≤ c ∧ c ≤ 'z' then Char.ofNat (c.toNat - 32) else c

/-- Python `str.lower()` on one character (ASCII range). -/
def pyLowerChar (c : Char) : Char :=
  if 'A' ≤ c ∧ c ≤ 'Z' then Char.ofNat (c.toNat + 32) else c

/-- Python `str.upper()`. -/
def pyUpper (s : Str) : Str := s.map pyUpperChar

/-- Python `str.lower()`. -/
def pyLower (s : Str) : Str := s.map pyLowerChar

/-- Python `sep.join(xs)`. -/
def joinWith (sep : Str) : List Str → Str
  | [] => []
  | [x] => x
  | x :: y :: rest => x ++ sep ++ joinWith sep (y :: rest)

/-- First-match association-list lookup (Python `dict.get`). -/
def lookupAssoc {α : Type} (kv : List (Str × α)) (k : Str) : Option α :=
  match kv with
  | [] => none
  | (k', v) :: rest => if k' = k then some v else lookupAssoc rest k

/-- Python `dict[k] = v`: replace the value in place if the key exists,
else append the binding (dicts preserve first-insertion order). -/
def upsert {α : Type} (kv : List (Str × α)) (k : Str) (v : α) : List (Str × α) :=
  match kv with
  | [] => [(k, v)]
  | (k', v') :: rest => if k' = k then (k, v) :: rest else (k', v') :: upsert rest k v

/-- Walk a list left to right, appending each element not already seen:
the accumulator pass behind `list(dict.fromkeys(l))`, which keeps the
first occurrence of every element and drops later duplicates. -/
def keepFirst {α : Type} [DecidableEq α] (acc : List α) : List α → List α
  | [] => acc
  | x :: xs => if x ∈ acc then keepFirst acc xs else keepFirst (acc ++ [x]) xs

/-- Python `list(dict.fromkeys(l))`. -/
def pyDedup {α : Type} [DecidableEq α] (l : List α) : List α := keepFirst [] l

/-- Filter-based reformulation of first-occurrence deduplication, more
convenient for induction; proved equal to `pyDedup` below. -/
def dedupFirst {α : Type} [DecidableEq α] : List α → List α
  | [] => []
  | x :: xs => x :: dedupFirst (xs.filter (fun y => decide (y ≠ x)))
termination_by l => l.length
decreasing_by
  exact Nat.lt_succ_of_le (List.length_filter_le _ _)

/-- Code-point lexicographic comparison, as Python string `<=` behaves. -/
def strLe : Str → Str → Bool
  | [], _ => true
  | _ :: _, [] => false
  | a :: as, b :: bs => if a = b then strLe as bs else decide (a.toNat < b.toNat)

/-- Stable insertion into a sorted list, for the model of Python `sorted`. -/
def insertSorted (x : Str) : List Str → List Str
  | [] => [x]
  | y :: ys => if strLe x y then x :: y :: ys else y :: insertSorted x ys

/-- Python `sorted` on a list of strings (stable, code-point order). -/
def pySorted (l : List Str) : List Str := l.foldr insertSorted []

/-- Character class `[A-Z0-9]` of the user-mention regular expression. -/
def isUserIdChar (c : Char) : Bool :=
  ('A' ≤ c ∧ c ≤ 'Z') ∨ ('0' ≤ c ∧ c ≤ '9')

/-- Full match of `USER_MENTION_RE = <@(U[A-Z0-9]+)(?:\|[^>]+)?>` returning
capture group 1.  The greedy `[A-Z0-9]+` needs no backtracking because
neither `|` nor `>` belongs to the class. -/
def userMentionFullmatch (token : Str) : Option Str :=
  match token with
  | c1 :: c2 :: c3 :: rest2 =>
    if c1 = '<' ∧ c2 = '@' ∧ c3 = 'U' then
      let idTail := rest2.takeWhile isUserIdChar
      let after := rest2.dropWhile isUserIdChar
      if idTail = [] then none
      else
        match after with
        | [] => none
        | a :: rest3 =>
          if a = '>' ∧ rest3 = [] then some ('U' :: idTail)
          else if a = '|' ∧ rest3.getLast? = some '>'
              ∧ rest3.dropLast ≠ [] ∧ '>' ∉ rest3.dropLast then
            some ('U' :: idTail)
          else none
    else none
  | _ => none

/-- Source `_resolve_user_identifier`: a user-mention token yields its
embedded ID; otherwise any token whose upper-casing starts with `U` is
accepted upper-cased; everything else is unresolved. -/
def resolve_user_identifier (token : Str) : Option Str :=
  let token := pyStrip token
  match userMentionFullmatch token with
  | some uid => some uid
  | none =>
    if (pyUpper token).take 1 = ['U'] then some (pyUpper token) else none

/-- Source `_extract_channel_id_from_mention`: parse `<#body>` or
`<#body|label>`, upper-case the part of the body before the first `|`, and
accept it when it starts with `C` or `G`. -/
def extract_channel_id_from_mention (token : Str) : Option Str :=
  let t := pyStrip token
  if t.take 2 = ['<', '#'] ∧ t.getLast? = some '>' then
    let body := (t.drop 2).dropLast
    let body := body.takeWhile (fun c => decide (c ≠ '|'))
    let upperBody := pyUpper body
    if upperBody.take 1 = ['C'] ∨ upperBody.take 1 = ['G'] then some upperBody
    else none
  else none

/-- Source `_channel_name_to_id`.  The name is normalized (leading `#`
stripped, lower-cased); the cache-plus-`conversations_list` paging that maps
a normalized name to a channel ID (or to nothing, also on listing failure)
is the remote primitive, passed in as `lookup`. -/
def channel_name_to_id (lookup : Str → Option Str) (channel_name : Str) : Option Str :=
  let channel_name := pyLower (channel_name.dropWhile (fun c => decide (c = '#')))
  if channel_name = [] then none
  else lookup channel_name

/-- Source `_resolve_channel_identifier`: mention syntax first, then the
raw-ID heuristic (`C`/`G` prefix and length at least 9), then the
name-to-ID lookup on the token with leading `#` stripped. -/
def resolve_channel_identifier (lookup : Str → Option Str) (token : Str) : Option Str :=
  let token := pyStrip token
  match extract_channel_id_from_mention token with
  | some mentionId => some mentionId
  | none =>
    let upperToken := pyUpper token
    if upperToken.take 1 = ['C'] ∨ upperToken.take 1 = ['G'] then
      if 9 ≤ upperToken.length then some upperToken else none
    else
      let normalized := token.dropWhile (fun c => decide (c = '#'))
      if normalized = [] then none
      else channel_name_to_id lookup normalized

/-- Source `_resolve_group_channels`: resolve every raw reference of a
group, separating the resolved IDs from the unresolvable entries, each list
deduplicated keeping first occurrences. -/
def resolve_group_channels (lookup : Str → Option Str)
    (group_name : Str) (channel_groups : Str → Option (List Str)) :
    List Str × List Str :=
  let raw_channels := (channel_groups group_name).getD []
  let resolved := raw_channels.filterMap (resolve_channel_identifier lookup)
  let missing := raw_channels.filter
    (fun entry => (resolve_channel_identifier lookup entry).isNone)
  (pyDedup resolved, pyDedup missing)

/-- Per-token contribution of the `_extract_channel_ids` loop, as the
four parallel accumulators (channel IDs, unknown tokens, empty groups,
missing-in-group entries) receive it.  The source memoizes
`_resolve_group_channels` per lower-cased group name in `resolved_groups`;
the memo is observationally transparent here because the resolution is a
pure function of `lookup`, so it is not carried explicitly. -/
def tokenContrib (lookup : Str → Option Str)
    (channel_groups : Str → Option (List Str)) (token : Str) :
    List Str × List Str × List Str × List Str :=
  let lower_token := pyLower token
  match channel_groups lower_token with
  | some _ =>
    let gm := resolve_group_channels lookup lower_token channel_groups
    let group_channels := gm.1
    let missing := gm.2
    (group_channels,
     [],
     if group_channels = [] then [token] else [],
     if missing = [] then []
     else [token ++ str " -> " ++ joinWith (str ", ") missing])
  | none =>
    match resolve_channel_identifier lookup token with
    | some channel_id => ([channel_id], [], [], [])
    | none => ([], [token], [], [])

/-- Accumulation phase of source `_extract_channel_ids`: concatenate the
per-token contributions in token order. -/
def extractLoop (lookup : Str → Option Str)
    (channel_groups : Str → Option (List Str)) :
    List Str → List Str × List Str × List Str × List Str
  | [] => ([], [], [], [])
  | t :: ts =>
    let c := tokenContrib lookup channel_groups t
    let rest := extractLoop lookup channel_groups ts
    (c.1 ++ rest.1, c.2.1 ++ rest.2.1, c.2.2.1 ++ rest.2.2.1, c.2.2.2 ++ rest.2.2.2)

/-- Source `_extract_channel_ids`: the accumulated lists, each passed
through `list(dict.fromkeys(...))`. -/
def extract_channel_ids (lookup : Str → Option Str)
    (channel_groups : Str → Option (List Str)) (raw_tokens : List Str) :
    List Str × List Str × List Str × List Str :=
  let r := extractLoop lookup channel_groups raw_tokens
  (pyDedup r.1, pyDedup r.2.1, pyDedup r.2.2.1, pyDedup r.2.2.2)

/-- The `errors` list `_parse_add_arguments` accumulates: one message per
non-empty error category, each listing that category's entries sorted. -/
def addErrors (lookup : Str → Option Str)
    (channel_groups : Str → Option (List Str)) (tokens : List Str) : List Str :=
  let e := extract_channel_ids lookup channel_groups tokens
  (if e.2.1 = [] then []
   else [str "Unknown channel or channel group: "
         ++ joinWith (str ", ") (pySorted e.2.1)])
  ++ (if e.2.2.1 = [] then []
      else [str "Channel groups without any valid channels: "
            ++ joinWith (str ", ") (pySorted e.2.2.1)])
  ++ (if e.2.2.2 = [] then []
      else [str "Could not resolve channels within groups: "
            ++ joinWith (str ", ") (pySorted e.2.2.2)])

/-- Source `_parse_add_arguments`.  A raised `ValueError` is modelled as
`Except.error` carrying the message text. -/
def parse_add_arguments (lookup : Str → Option Str)
    (channel_groups : Str → Option (List Str)) (args : List Str) :
    Except Str (Str × List Str) :=
  match args with
  | [] => Except.error (str "Missing bot user ID to invite")
  | arg0 :: tokens =>
    match resolve_user_identifier arg0 with
    | none => Except.error
        (str "Couldn't understand which bot to invite. Mention it or provide the user ID.")
    | some target_bot =>
      if tokens = [] then
        Except.error (str "Please name channel group(s) and/or channel names.")
      else
        let channel_ids := (extract_channel_ids lookup channel_groups tokens).1
        let errors := addErrors lookup channel_groups tokens
        if errors ≠ [] then Except.error (joinWith (str "\n") errors)
        else if channel_ids = [] then
          Except.error (str "Please name channel group(s) and/or channel names.")
        else Except.ok (target_bot, channel_ids)

/-- Source `MAX_RATE_LIMIT_RETRIES`. -/
def MAX_RATE_LIMIT_RETRIES : Nat := 5

/-- A `SlackApiError`'s response, as the bot reads it: an HTTP status code,
an error-code field, and the response headers.  (The source's
`getattr(exc, "response", None)` guard never fires for real
`slack_sdk` errors, whose `response` attribute is always present.) -/
structure SlackApiError where
  status_code : Option Int
  errorCode : Option Str
  headers : List (Str × Str)
deriving DecidableEq

/-- Source `_handle_rate_limit`, with the sleep made explicit: `some w`
means "return True after sleeping `w` seconds", `none` means
"return False" (the caller surfaces the error).  `parseHint` models
Python's `int(float(raw))`, returning `none` when that raises. -/
def handle_rate_limit (parseHint : Str → Option Int)
    (exc : SlackApiError) (attempt : Nat) : Option Int :=
  if exc.status_code = some 429 ∨ exc.errorCode = some (str "ratelimited") then
    if attempt > MAX_RATE_LIMIT_RETRIES then none
    else
      let retry_after_raw := (lookupAssoc exc.headers (str "Retry-After")).getD (str "1")
      let wait_time : Int :=
        match parseHint retry_after_raw with
        | some v => max 1 v
        | none => 1
      some wait_time
  else none

/-- Result of one remote join/invite call. -/
inductive ApiResult where
  | ok
  | err (e : SlackApiError)
deriving DecidableEq

/-- Python f-string rendering of an `Optional[str]` value. -/
def formatPyOpt (o : Option Str) : Str :=
  match o with
  | none => str "None"
  | some s => s

/-- Weight of a loop phase in the termination measure of the per-channel
invitation loop: a join phase still has its invite step ahead of it. -/
def phaseWeight : Option (Option Str) → Nat
  | none => 1
  | some _ => 0

/-- The per-channel `while True` loop of source `_invite_bot_to_channels`.
`joinF`/`inviteF` give the result of the `conversations_join` /
`conversations_invite` call on each attempt number.  `phase = none` is the
top of a loop iteration (about to join); `phase = some join_error` is the
invite step of the same iteration carrying that iteration's `join_error`.
Every exit path appends exactly one outcome line, returned here. -/
def invite_channel_loop (parseHint : Str → Option Int)
    (joinF inviteF : Nat → ApiResult) (channel_id : Str)
    (attempt : Nat) (phase : Option (Option Str)) : Str :=
  match phase with
  | none =>
    match joinF attempt with
    | .ok => invite_channel_loop parseHint joinF inviteF channel_id attempt (some none)
    | .err j =>
      if j.errorCode = some (str "method_not_supported_for_channel_type")
          ∨ j.errorCode = some (str "already_in_channel") then
        invite_channel_loop parseHint joinF inviteF channel_id attempt (some j.errorCode)
      else
        match h : handle_rate_limit parseHint j attempt with
        | some _ => invite_channel_loop parseHint joinF inviteF channel_id (attempt + 1) none
        | none =>
          str "❌ <#" ++ channel_id ++ str ">: failed to join channel ("
            ++ formatPyOpt j.errorCode ++ str ")"
  | some join_error =>
    match inviteF attempt with
    | .ok => str "✅ Invited to <#" ++ channel_id ++ str ">"
    | .err e =>
      match h : handle_rate_limit parseHint e attempt with
      | some _ => invite_channel_loop parseHint joinF inviteF channel_id (attempt + 1) none
      | none =>
        let error := e.errorCode.getD (str "unknown_error")
        if error = str "already_in_channel" then
          str "⚠️ Already in <#" ++ channel_id ++ str ">"
        else if error = str "cant_invite"
            ∧ (join_error = some (str "method_not_supported_for_channel_type")
               ∨ join_error = some (str "not_in_channel")) then
          str "❌ <#" ++ channel_id
            ++ str ">: can't invite. Add SlackAdder to the channel first (private channels require a manual invite)."
        else
          str "❌ <#" ++ channel_id ++ str ">: " ++ error
termination_by (MAX_RATE_LIMIT_RETRIES + 1 - attempt) * 2 + phaseWeight phase
decreasing_by
  · simp only [phaseWeight]
    omega
  · simp only [phaseWeight]
    omega
  · simp only [phaseWeight]
    have ha : attempt ≤ MAX_RATE_LIMIT_RETRIES := by
      unfold handle_rate_limit at h
      by_cases hc : j.status_code = some 429 ∨ j.errorCode = some (str "ratelimited")
      · rw [if_pos hc] at h
        by_cases hb : attempt > MAX_RATE_LIMIT_RETRIES
        · rw [if_pos hb] at h
          exact absurd h (by simp)
        · omega
      · rw [if_neg hc] at h
        exact absurd h (by simp)
    unfold MAX_RATE_LIMIT_RETRIES at ha ⊢
    omega
  · simp only [phaseWeight]
    have ha : attempt ≤ MAX_RATE_LIMIT_RETRIES := by
      unfold handle_rate_limit at h
      by_cases hc : e.status_code = some 429 ∨ e.errorCode = some (str "ratelimited")
      · rw [if_pos hc] at h
        by_cases hb : attempt > MAX_RATE_LIMIT_RETRIES
        · rw [if_pos hb] at h
          exact absurd h (by simp)
        · omega
      · rw [if_neg hc] at h
        exact absurd h (by simp)
    unfold MAX_RATE_LIMIT_RETRIES at ha ⊢
    omega

/-- Source `_invite_bot_to_channels`: one independent join-then-invite loop
per channel, in input order, each yielding one outcome line.  The remote
behaviours are per-channel, per-attempt functions. -/
def invite_bot_to_channels (parseHint : Str → Option Int)
    (joinF inviteF : Str → Nat → ApiResult)
    (target_bot : Str) (channel_ids : List Str) : List Str :=
  channel_ids.map
    (fun channel_id =>
      invite_channel_loop parseHint (joinF channel_id) (inviteF channel_id) channel_id 1 none)

/-- Guest-type flags cached per user by `_is_guest_user`. -/
structure UserFlags where
  is_restricted : Bool
  is_ultra_restricted : Bool
  is_stranger : Bool
deriving DecidableEq

/-- Shared/external flags cached per channel by `_is_external_channel`. -/
structure ChannelFlags where
  is_shared : Bool
  is_ext_shared : Bool
  is_org_shared : Bool
deriving DecidableEq

/-- Fixed message of `_is_guest_user` for a `missing_scope` lookup failure. -/
def guestScopeMessage : Str :=
  str "SlackAdder is missing the users:read scope. An admin needs to reinstall the app with the latest manifest."

/-- Fixed message of `_is_guest_user` for any other lookup failure. -/
def guestVerifyFailedMessage : Str := str "Couldn't verify your account status."

/-- Fixed message of `_is_external_channel` for a `missing_scope` failure. -/
def channelScopeMessage : Str :=
  str "SlackAdder is missing channel read permissions. Ask an admin to reinstall with the latest manifest."

/-- Fixed message of `_is_external_channel` for any other lookup failure. -/
def channelVerifyFailedMessage : Str := str "Couldn't verify this channel."

/-- Fixed guest denial sent by the event handler when `_is_guest_user`
returns true with no specific message. -/
def guestDenialMessage : Str :=
  str "Sorry, SlackAdder can only be used by full workspace members."

/-- Fixed external-channel denial sent by the event handler. -/
def externalDenialMessage : Str :=
  str "Sorry, SlackAdder cannot be used in shared or external channels."

/-- The retry loop of source `_is_guest_user` after a cache miss.
`usersInfo` gives the `users_info` outcome per attempt.  Returns the
(is-guest, message) pair together with the flags to cache on success. -/
def is_guest_user_loop (parseHint : Str → Option Int)
    (usersInfo : Nat → Except SlackApiError UserFlags) (attempt : Nat) :
    (Bool × Option Str) × Option UserFlags :=
  match usersInfo attempt with
  | .ok user =>
    ((user.is_restricted ∨ user.is_ultra_restricted ∨ user.is_stranger, none), some user)
  | .error exc =>
    match h : handle_rate_limit parseHint exc attempt with
    | some _ => is_guest_user_loop parseHint usersInfo (attempt + 1)
    | none =>
      if exc.errorCode = some (str "missing_scope") then
        ((true, some guestScopeMessage), none)
      else
        ((true, some guestVerifyFailedMessage), none)
termination_by MAX_RATE_LIMIT_RETRIES + 1 - attempt
decreasing_by
  have ha : attempt ≤ MAX_RATE_LIMIT_RETRIES := by
    unfold handle_rate_limit at h
    by_cases hc : exc.status_code = some 429 ∨ exc.errorCode = some (str "ratelimited")
    · rw [if_pos hc] at h
      by_cases hb : attempt > MAX_RATE_LIMIT_RETRIES
      · rw [if_pos hb] at h
        exact absurd h (by simp)
      · omega
    · rw [if_neg hc] at h
      exact absurd h (by simp)
  unfold MAX_RATE_LIMIT_RETRIES at ha ⊢
  omega

/-- Source `_is_guest_user` with its cache made an explicit argument;
the returned cache reflects the populate-on-success write. -/
def is_guest_user (parseHint : Str → Option Int)
    (usersInfo : Nat → Except SlackApiError UserFlags)
    (cache : List (Str × UserFlags)) (user_id : Str) :
    (Bool × Option Str) × List (Str × UserFlags) :=
  match lookupAssoc cache user_id with
  | some cached =>
    ((cached.is_restricted ∨ cached.is_ultra_restricted ∨ cached.is_stranger, none), cache)
  | none =>
    let r := is_guest_user_loop parseHint usersInfo 1
    (r.1,
     match r.2 with
     | some flags => upsert cache user_id flags
     | none => cache)

/-- The retry loop of source `_is_external_channel` after a cache miss.
`convInfo` gives the `conversations_info` outcome per attempt. -/
def is_external_channel_loop (parseHint : Str → Option Int)
    (convInfo : Nat → Except SlackApiError ChannelFlags) (attempt : Nat) :
    (Bool × Option Str) × Option ChannelFlags :=
  match convInfo attempt with
  | .ok channel =>
    ((channel.is_shared ∨ channel.is_ext_shared ∨ channel.is_org_shared, none), some channel)
  | .error exc =>
    match h : handle_rate_limit parseHint exc attempt with
    | some _ => is_external_channel_loop parseHint convInfo (attempt + 1)
    | none =>
      if exc.errorCode = some (str "missing_scope") then
        ((true, some channelScopeMessage), none)
      else
        ((true, some channelVerifyFailedMessage), none)
termination_by MAX_RATE_LIMIT_RETRIES + 1 - attempt
decreasing_by
  have ha : attempt ≤ MAX_RATE_LIMIT_RETRIES := by
    unfold handle_rate_limit at h
    by_cases hc : exc.status_code = some 429 ∨ exc.errorCode = some (str "ratelimited")
    · rw [if_pos hc] at h
      by_cases hb : attempt > MAX_RATE_LIMIT_RETRIES
      · rw [if_pos hb] at h
        exact absurd h (by simp)
      · omega
    · rw [if_neg hc] at h
      exact absurd h (by simp)
  unfold MAX_RATE_LIMIT_RETRIES at ha ⊢
  omega

/-- Source `_is_external_channel` with explicit cache: DM-style channels
(identifier starting with `D`) are external outright; otherwise the cached
or looked-up shared/external/org-shared flags decide. -/
def is_external_channel (parseHint : Str → Option Int)
    (convInfo : Nat → Except SlackApiError ChannelFlags)
    (cache : List (Str × ChannelFlags)) (channel_id : Str) :
    (Bool × Option Str) × List (Str × ChannelFlags) :=
  if channel_id.take 1 = ['D'] then ((true, none), cache)
  else
    match lookupAssoc cache channel_id with
    | some channel =>
      ((channel.is_shared ∨ channel.is_ext_shared ∨ channel.is_org_shared, none), cache)
    | none =>
      let r := is_external_channel_loop parseHint convInfo 1
      (r.1,
       match r.2 with
       | some flags => upsert cache channel_id flags
       | none => cache)

/-- The batching loop of source `_send_batched_messages`, producing the
batches as line lists (each `say` call joins one batch with newlines). -/
def send_batches_loop (batch : List Str) (char_count : Nat) : List Str → List (List Str)
  | [] => if batch = [] then [] else [batch]
  | l :: ls =>
    let s := pyStrip l
    if s = [] then send_batches_loop batch char_count ls
    else if 3500 < char_count + s.length + 1 ∨ 40 ≤ batch.length then
      batch :: send_batches_loop [s] (s.length + 1) ls
    else
      send_batches_loop (batch ++ [s]) (char_count + s.length + 1) ls

/-- Batches emitted by source `_send_batched_messages` for an input line
sequence (empty input returns immediately without emitting). -/
def send_batches (lines : List Str) : List (List Str) :=
  if lines = [] then [] else send_batches_loop [] 0 lines

/-- Source `_send_batched_messages`: the sequence of message texts passed
to `say`, i.e. every batch joined with newlines. -/
def send_batched_messages (lines : List Str) : List Str :=
  (send_batches lines).map (joinWith (str "\n"))

/-- JSON values as `json.load` produces them (numbers restricted to the
integers, which is all the group configuration shapes use). -/
inductive JValue where
  | jnull
  | jbool (b : Bool)
  | jnum (n : Int)
  | jstr (s : Str)
  | jlist (items : List JValue)
  | jdict (fields : List (Str × JValue))

/-- Python truthiness of a JSON value (the `if item` filter). -/
def truthy : JValue → Bool
  | .jnull => false
  | .jbool b => b
  | .jnum n => decide (n ≠ 0)
  | .jstr s => decide (s ≠ [])
  | .jlist items => !items.isEmpty
  | .jdict fields => !fields.isEmpty

/-- Accumulator of the `_load_channel_groups` iteration. -/
structure LoadState where
  groups : List (Str × List Str)
  descriptions : List (Str × Str)
  display_names : List (Str × Str)
  empty_groups : List Str

/-- One iteration of the `_load_channel_groups` loop over a `(name, value)`
entry of the configuration mapping.  `pyToStr` models Python `str(item)`
on a JSON value (its exact text never influences control flow here). -/
def load_step (pyToStr : JValue → Str) (st : LoadState) (entry : Str × JValue) : LoadState :=
  let name := entry.1
  let lower_name := pyLower name
  match entry.2 with
  | .jdict fields =>
    let st1 :=
      match lookupAssoc fields (str "channels") with
      | some (.jlist items) =>
        let channels_list := (items.filter truthy).map pyToStr
        { st with
          groups := upsert st.groups lower_name channels_list
          display_names := upsert st.display_names lower_name name
          empty_groups :=
            if channels_list = [] then st.empty_groups ++ [name] else st.empty_groups }
      | _ => { st with empty_groups := st.empty_groups ++ [name] }
    match lookupAssoc fields (str "description") with
    | some (.jstr d) =>
      { st1 with descriptions := upsert st1.descriptions lower_name (pyStrip d) }
    | _ => st1
  | .jlist items =>
    let channels_list := (items.filter truthy).map pyToStr
    { st with
      groups := upsert st.groups lower_name channels_list
      display_names := upsert st.display_names lower_name name
      empty_groups :=
        if channels_list = [] then st.empty_groups ++ [name] else st.empty_groups }
  | _ => { st with empty_groups := st.empty_groups ++ [name] }

/-- Source `_load_channel_groups` from the decoded configuration mapping on
(the file-missing, JSON-decode and top-level-shape cases precede this
loop).  Raising `ValueError` is modelled as `Except.error`. -/
def load_channel_groups (pyToStr : JValue → Str) (data : List (Str × JValue)) :
    Except Str (List (Str × List Str) × List (Str × Str) × List (Str × Str)) :=
  let final := data.foldl (load_step pyToStr) ⟨[], [], [], []⟩
  if final.empty_groups ≠ [] then
    Except.error
      (str "Channel groups missing channel entries: "
        ++ joinWith (str ", ") final.empty_groups)
  else
    Except.ok (final.groups, final.descriptions, final.display_names)

/-- A configuration entry that `_load_channel_groups` records under
"missing channel entries": value of the wrong shape, `channels` not a
list, or no truthy channel entry. -/
def badEntry (entry : Str × JValue) : Bool :=
  match entry.2 with
  | .jdict fields =>
    match lookupAssoc fields (str "channels") with
    | some (.jlist items) => (items.filter truthy).isEmpty
    | _ => true
  | .jlist items => (items.filter truthy).isEmpty
  | _ => true

/-- Sum of the per-line character counts the batching loop accumulates
(`len(line) + 1` per line). -/
def ccOf (batch : List Str) : Nat := (batch.map (fun s => s.length + 1)).sum

theorem mem_dedupFirst {α : Type} [DecidableEq α] (l : List α) (x : α) :
    x ∈ dedupFirst l ↔ x ∈ l := by
  induction l using dedupFirst.induct with
  | case1 => simp [dedupFirst]
  | case2 a as ih =>
    rw [dedupFirst]
    simp only [List.mem_cons, ih, List.mem_filter, decide_eq_true_eq]
    constructor
    · rintro (rfl | ⟨h, _⟩)
      · exact Or.inl rfl
      · exact Or.inr h
    · rintro (rfl | h)
      · exact Or.inl rfl
      · by_cases hx : x = a
        · exact Or.inl hx
        · exact Or.inr ⟨h, hx⟩

theorem nodup_dedupFirst {α : Type} [DecidableEq α] (l : List α) :
    (dedupFirst l).Nodup := by
  induction l using dedupFirst.induct with
  | case1 => simp [dedupFirst]
  | case2 a as ih =>
    rw [dedupFirst]
    refine List.nodup_cons.mpr ⟨?_, ih⟩
    intro hmem
    rw [mem_dedupFirst] at hmem
    rcases List.mem_filter.mp hmem with ⟨_, hne⟩
    exact (decide_eq_true_eq.mp hne) rfl

theorem dedupFirst_sublist {α : Type} [DecidableEq α] (l : List α) :
    (dedupFirst l).Sublist l := by
  induction l using dedupFirst.induct with
  | case1 => simp [dedupFirst]
  | case2 a as ih =>
    rw [dedupFirst]
    exact List.Sublist.cons₂ a (ih.trans (List.filter_sublist as))

theorem dedupFirst_eq_nil_iff {α : Type} [DecidableEq α] (l : List α) :
    dedupFirst l = [] ↔ l = [] := by
  cases l with
  | nil => simp [dedupFirst]
  | cons a as =>
    rw [dedupFirst]
    simp

theorem dedupFirst_append_block {α : Type} [DecidableEq α] (l₁ : List α) :
    ∀ (X l₂ : List α), (∀ x ∈ X, x ∈ l₁) →
      dedupFirst (l₁ ++ X ++ l₂) = dedupFirst (l₁ ++ l₂) := by
  induction l₁ using dedupFirst.induct with
  | case1 =>
    intro X l₂ hX
    have : X = [] := List.eq_nil_iff_forall_not_mem.mpr (fun x hx => by simpa using hX x hx)
    simp [this]
  | case2 a as ih =>
    intro X l₂ hX
    have hcons : (a :: as) ++ X ++ l₂ = a :: (as ++ X ++ l₂) := by simp
    have hcons2 : (a :: as) ++ l₂ = a :: (as ++ l₂) := by simp
    rw [hcons, hcons2, dedupFirst, dedupFirst]
    congr 1
    rw [List.filter_append, List.filter_append, List.filter_append]
    exact ih (X.filter (fun y => decide (y ≠ a))) (l₂.filter (fun y => decide (y ≠ a)))
      (fun x hx => by
        rcases List.mem_filter.mp hx with ⟨hxX, hxa⟩
        rcases List.mem_cons.mp (hX x hxX) with rfl | hmem
        · exact absurd rfl (decide_eq_true_eq.mp hxa)
        · exact List.mem_filter.mpr ⟨hmem, hxa⟩)

theorem keepFirst_eq_append_dedupFirst {α : Type} [DecidableEq α] (l : List α) :
    ∀ acc : List α,
      keepFirst acc l = acc ++ dedupFirst (l.filter (fun y => decide (y ∉ acc))) := by
  induction l with
  | nil => intro acc; simp [keepFirst, dedupFirst]
  | cons x xs ih =>
    intro acc
    rw [keepFirst]
    by_cases hx : x ∈ acc
    · rw [if_pos hx, ih acc]
      congr 2
      rw [List.filter_cons]
      simp [hx]
    · rw [if_neg hx, ih (acc ++ [x])]
      have hfilter : (x :: xs).filter (fun y => decide (y ∉ acc)) =
          x :: xs.filter (fun y => decide (y ∉ acc)) := by
        rw [List.filter_cons]
        simp [hx]
      rw [hfilter, dedupFirst, List.filter_filter]
      have hcongr : xs.filter (fun y => decide (y ∉ acc ++ [x])) =
          xs.filter (fun b => decide (b ≠ x) && decide (b ∉ acc)) := by
        apply List.filter_congr
        intro b _
        by_cases hbx : b = x
        · subst hbx
          simp
        · by_cases hba : b ∈ acc <;> simp [hbx, hba]
      rw [hcongr]
      simp

theorem dedupFirst_eq_keepFirst {α : Type} [DecidableEq α] (l : List α) :
    dedupFirst l = keepFirst [] l := by
  rw [keepFirst_eq_append_dedupFirst l []]
  have : l.filter (fun y => decide (y ∉ ([] : List α))) = l := by
    apply List.filter_eq_self.mpr
    intro a _
    simp
  rw [this]
  simp

theorem pyDedup_eq_dedupFirst {α : Type} [DecidableEq α] (l : List α) :
    pyDedup l = dedupFirst l :=
  (dedupFirst_eq_keepFirst l).symm

theorem takeWhile_append_stop {α : Type} (p : α → Bool) (l₁ : List α) :
    ∀ (x : α) (l₂ : List α), (∀ c ∈ l₁, p c = true) → p x = false →
      (l₁ ++ x :: l₂).takeWhile p = l₁ := by
  induction l₁ with
  | nil =>
    intro x l₂ _ hx
    simp [List.takeWhile_cons, hx]
  | cons a as ih =>
    intro x l₂ hall hx
    have ha : p a = true := hall a (List.mem_cons_self _ _)
    simp only [List.cons_append, List.takeWhile_cons, ha]
    simp only [if_true]
    rw [ih x l₂ (fun c hc => hall c (List.mem_cons_of_mem _ hc)) hx]

theorem dropWhile_append_stop {α : Type} (p : α → Bool) (l₁ : List α) :
    ∀ (x : α) (l₂ : List α), (∀ c ∈ l₁, p c = true) → p x = false →
      (l₁ ++ x :: l₂).dropWhile p = x :: l₂ := by
  induction l₁ with
  | nil =>
    intro x l₂ _ hx
    simp [List.dropWhile_cons, hx]
  | cons a as ih =>
    intro x l₂ hall hx
    have ha : p a = true := hall a (List.mem_cons_self _ _)
    simp only [List.cons_append, List.dropWhile_cons, ha]
    simp only [if_true]
    exact ih x l₂ (fun c hc => hall c (List.mem_cons_of_mem _ hc)) hx

theorem pyStrip_eq_self (l : Str)
    (hhead : ∀ c, l.head? = some c → pyIsSpace c = false)
    (hlast : ∀ c, l.getLast? = some c → pyIsSpace c = false) :
    pyStrip l = l := by
  unfold pyStrip
  have h1 : l.dropWhile pyIsSpace = l := by
    cases l with
    | nil => rfl
    | cons a as => simp [List.dropWhile_cons, hhead a rfl]
  rw [h1]
  have h2 : l.reverse.dropWhile pyIsSpace = l.reverse := by
    cases hr : l.reverse with
    | nil => rfl
    | cons b bs =>
      have hb : l.getLast? = some b := by
        rw [← List.head?_reverse, hr]
        rfl
      simp [List.dropWhile_cons, hlast b hb]
  rw [h2]
  simp

theorem userMentionFullmatch_id (idTail : Str) (hne : idTail ≠ [])
    (hall : ∀ c ∈ idTail, isUserIdChar c = true) :
    userMentionFullmatch ('<' :: '@' :: 'U' :: (idTail ++ ['>'])) = some ('U' :: idTail) := by
  rw [userMentionFullmatch.eq_1]
  rw [if_pos ⟨rfl, rfl, rfl⟩]
  simp only [takeWhile_append_stop isUserIdChar idTail '>' [] hall (by decide),
             dropWhile_append_stop isUserIdChar idTail '>' [] hall (by decide), hne]
  simp

theorem userMentionFullmatch_id_label (idTail label : Str) (hne : idTail ≠ [])
    (hall : ∀ c ∈ idTail, isUserIdChar c = true)
    (hlne : label ≠ []) (hlgt : '>' ∉ label) :
    userMentionFullmatch ('<' :: '@' :: 'U' :: (idTail ++ '|' :: (label ++ ['>'])))
      = some ('U' :: idTail) := by
  rw [userMentionFullmatch.eq_1]
  rw [if_pos ⟨rfl, rfl, rfl⟩]
  simp only [takeWhile_append_stop isUserIdChar idTail '|' (label ++ ['>']) hall (by decide),
             dropWhile_append_stop isUserIdChar idTail '|' (label ++ ['>']) hall (by decide)]
  rw [if_neg hne]
  rw [if_neg (by simp)]
  rw [if_pos ⟨trivial, List.getLast?_concat label,
        by rw [List.dropLast_concat]; exact hlne,
        by rw [List.dropLast_concat]; exact hlgt⟩]

theorem userMentionFullmatch_head_ne (c : Char) (rest : Str) (hc : c ≠ '<') :
    userMentionFullmatch (c :: rest) = none := by
  match rest with
  | [] => rfl
  | [c2] => rfl
  | c2 :: c3 :: rest2 =>
    rw [userMentionFullmatch.eq_1]
    rw [if_neg (by rintro ⟨h1, -, -⟩; exact hc h1)]

theorem extract_mention_plain (body : Str) (hpipe : '|' ∉ body)
    (hCG : (pyUpper body).take 1 = ['C'] ∨ (pyUpper body).take 1 = ['G']) :
    extract_channel_id_from_mention ('<' :: '#' :: (body ++ ['>'])) = some (pyUpper body) := by
  have hT : '<' :: '#' :: (body ++ ['>']) = ('<' :: '#' :: body) ++ ['>'] := by simp
  have hstrip : pyStrip ('<' :: '#' :: (body ++ ['>'])) = '<' :: '#' :: (body ++ ['>']) := by
    refine pyStrip_eq_self _ (fun c hc => ?_) (fun c hc => ?_)
    · rw [show ('<' :: '#' :: (body ++ ['>'])).head? = some '<' from rfl] at hc
      cases hc
      decide
    · rw [hT, List.getLast?_concat] at hc
      cases hc
      decide
  simp only [extract_channel_id_from_mention, hstrip]
  rw [if_pos ⟨rfl, by rw [hT]; exact List.getLast?_concat _⟩]
  have hdrop : ('<' :: '#' :: (body ++ ['>'])).drop 2 = body ++ ['>'] := rfl
  rw [hdrop, List.dropLast_concat]
  have htw : body.takeWhile (fun c => decide (c ≠ '|')) = body :=
    List.takeWhile_eq_self_iff.mpr
      (fun c hc => decide_eq_true (fun h => hpipe (h ▸ hc)))
  rw [htw, if_pos hCG]

theorem extract_mention_label (body label : Str) (hpipe : '|' ∉ body)
    (hCG : (pyUpper body).take 1 = ['C'] ∨ (pyUpper body).take 1 = ['G']) :
    extract_channel_id_from_mention ('<' :: '#' :: (body ++ '|' :: (label ++ ['>'])))
      = some (pyUpper body) := by
  have hT2 : body ++ '|' :: (label ++ ['>']) = (body ++ '|' :: label) ++ ['>'] := by simp
  have hT : '<' :: '#' :: (body ++ '|' :: (label ++ ['>']))
      = ('<' :: '#' :: (body ++ '|' :: label)) ++ ['>'] := by simp
  have hstrip : pyStrip ('<' :: '#' :: (body ++ '|' :: (label ++ ['>'])))
      = '<' :: '#' :: (body ++ '|' :: (label ++ ['>'])) := by
    refine pyStrip_eq_self _ (fun c hc => ?_) (fun c hc => ?_)
    · rw [show ('<' :: '#' :: (body ++ '|' :: (label ++ ['>']))).head? = some '<' from rfl] at hc
      cases hc
      decide
    · rw [hT, List.getLast?_concat] at hc
      cases hc
      decide
  simp only [extract_channel_id_from_mention, hstrip]
  rw [if_pos ⟨rfl, by rw [hT]; exact List.getLast?_concat _⟩]
  have hdrop : ('<' :: '#' :: (body ++ '|' :: (label ++ ['>']))).drop 2
      = body ++ '|' :: (label ++ ['>']) := rfl
  rw [hdrop, hT2, List.dropLast_concat]
  have htw : (body ++ '|' :: label).takeWhile (fun c => decide (c ≠ '|')) = body :=
    takeWhile_append_stop _ body '|' label
      (fun c hc => decide_eq_true (fun h => hpipe (h ▸ hc))) (by decide)
  rw [htw, if_pos hCG]

theorem resolve_mention_plain (lookup : Str → Option Str) (body : Str) (hpipe : '|' ∉ body)
    (hCG : (pyUpper body).take 1 = ['C'] ∨ (pyUpper body).take 1 = ['G']) :
    resolve_channel_identifier lookup ('<' :: '#' :: (body ++ ['>'])) = some (pyUpper body) := by
  have hT : '<' :: '#' :: (body ++ ['>']) = ('<' :: '#' :: body) ++ ['>'] := by simp
  have hstrip : pyStrip ('<' :: '#' :: (body ++ ['>'])) = '<' :: '#' :: (body ++ ['>']) := by
    refine pyStrip_eq_self _ (fun c hc => ?_) (fun c hc => ?_)
    · rw [show ('<' :: '#' :: (body ++ ['>'])).head? = some '<' from rfl] at hc
      cases hc
      decide
    · rw [hT, List.getLast?_concat] at hc
      cases hc
      decide
  simp only [resolve_channel_identifier, hstrip, extract_mention_plain body hpipe hCG]

theorem resolve_mention_label (lookup : Str → Option Str) (body label : Str)
    (hpipe : '|' ∉ body)
    (hCG : (pyUpper body).take 1 = ['C'] ∨ (pyUpper body).take 1 = ['G']) :
    resolve_channel_identifier lookup ('<' :: '#' :: (body ++ '|' :: (label ++ ['>'])))
      = some (pyUpper body) := by
  have hT : '<' :: '#' :: (body ++ '|' :: (label ++ ['>']))
      = ('<' :: '#' :: (body ++ '|' :: label)) ++ ['>'] := by simp
  have hstrip : pyStrip ('<' :: '#' :: (body ++ '|' :: (label ++ ['>'])))
      = '<' :: '#' :: (body ++ '|' :: (label ++ ['>'])) := by
    refine pyStrip_eq_self _ (fun c hc => ?_) (fun c hc => ?_)
    · rw [show ('<' :: '#' :: (body ++ '|' :: (label ++ ['>']))).head? = some '<' from rfl] at hc
      cases hc
      decide
    · rw [hT, List.getLast?_concat] at hc
      cases hc
      decide
  simp only [resolve_channel_identifier, hstrip, extract_mention_label body label hpipe hCG]

theorem resolve_user_mention_id (idTail : Str) (hne : idTail ≠ [])
    (hall : ∀ c ∈ idTail, isUserIdChar c = true) :
    resolve_user_identifier ('<' :: '@' :: 'U' :: (idTail ++ ['>'])) = some ('U' :: idTail) := by
  have hT : '<' :: '@' :: 'U' :: (idTail ++ ['>'])
      = ('<' :: '@' :: 'U' :: idTail) ++ ['>'] := by simp
  have hstrip : pyStrip ('<' :: '@' :: 'U' :: (idTail ++ ['>']))
      = '<' :: '@' :: 'U' :: (idTail ++ ['>']) := by
    refine pyStrip_eq_self _ (fun c hc => ?_) (fun c hc => ?_)
    · rw [show ('<' :: '@' :: 'U' :: (idTail ++ ['>'])).head? = some '<' from rfl] at hc
      cases hc
      decide
    · rw [hT, List.getLast?_concat] at hc
      cases hc
      decide
  simp only [resolve_user_identifier, hstrip, userMentionFullmatch_id idTail hne hall]

theorem resolve_user_mention_id_label (idTail label : Str) (hne : idTail ≠ [])
    (hall : ∀ c ∈ idTail, isUserIdChar c = true)
    (hlne : label ≠ []) (hlgt : '>' ∉ label) :
    resolve_user_identifier ('<' :: '@' :: 'U' :: (idTail ++ '|' :: (label ++ ['>'])))
      = some ('U' :: idTail) := by
  have hT : '<' :: '@' :: 'U' :: (idTail ++ '|' :: (label ++ ['>']))
      = ('<' :: '@' :: 'U' :: (idTail ++ '|' :: label)) ++ ['>'] := by simp
  have hstrip : pyStrip ('<' :: '@' :: 'U' :: (idTail ++ '|' :: (label ++ ['>'])))
      = '<' :: '@' :: 'U' :: (idTail ++ '|' :: (label ++ ['>'])) := by
    refine pyStrip_eq_self _ (fun c hc => ?_) (fun c hc => ?_)
    · rw [show ('<' :: '@' :: 'U' :: (idTail ++ '|' :: (label ++ ['>']))).head? = some '<'
          from rfl] at hc
      cases hc
      decide
    · rw [hT, List.getLast?_concat] at hc
      cases hc
      decide
  simp only [resolve_user_identifier, hstrip,
    userMentionFullmatch_id_label idTail label hne hall hlne hlgt]

theorem resolve_user_upper_u (t : Str)
    (h : (pyStrip t).take 1 = ['u'] ∨ (pyStrip t).take 1 = ['U']) :
    resolve_user_identifier t = some (pyUpper (pyStrip t)) := by
  rcases hsplit : pyStrip t with _ | ⟨c, rest⟩
  · rcases h with h | h <;> rw [hsplit] at h <;> simp at h
  · have hc : c = 'u' ∨ c = 'U' := by
      rcases h with h | h <;> rw [hsplit] at h <;>
        simp only [List.take_succ_cons, List.take_zero, List.cons.injEq] at h
      · exact Or.inl h.1
      · exact Or.inr h.1
    have hm : userMentionFullmatch (c :: rest) = none :=
      userMentionFullmatch_head_ne c rest (by rcases hc with rfl | rfl <;> decide)
    have hup : (pyUpper (c :: rest)).take 1 = ['U'] := by
      rcases hc with rfl | rfl <;> simp [pyUpper] <;> decide
    simp only [resolve_user_identifier, hsplit, hm, hup, if_pos]

/-- C9: a bracketed channel mention `<#body>` or `<#body|label>` whose body
upper-cases to a `C`- or `G`-initial string resolves to the upper-cased
body with no minimum-length requirement, while the same short body as a
bare token is rejected: `<#c1>` resolves to `C1` though bare `c1` yields
unresolved. -/
theorem claim_C9_mention_bypasses_min_length
    (lookup : Str → Option Str) (body label : Str) (hpipe : '|' ∉ body)
    (hCG : (pyUpper body).take 1 = ['C'] ∨ (pyUpper body).take 1 = ['G']) :
    resolve_channel_identifier lookup ('<' :: '#' :: (body ++ ['>'])) = some (pyUpper body)
    ∧ resolve_channel_identifier lookup ('<' :: '#' :: (body ++ '|' :: (label ++ ['>'])))
        = some (pyUpper body)
    ∧ resolve_channel_identifier lookup (str "<#c1>") = some (str "C1")
    ∧ resolve_channel_identifier lookup (str "c1") = none :=
  ⟨resolve_mention_plain lookup body hpipe hCG,
   resolve_mention_label lookup body label hpipe hCG,
   rfl, rfl⟩

theorem claim_C9_witness :
    ('|' ∉ str "c1")
    ∧ ((pyUpper (str "c1")).take 1 = ['C'] ∨ (pyUpper (str "c1")).take 1 = ['G'])
    ∧ resolve_channel_identifier (fun _ => none) ('<' :: '#' :: (str "c1" ++ ['>']))
        = some (pyUpper (str "c1")) :=
  ⟨by decide, by decide,
   (claim_C9_mention_bypasses_min_length (fun _ => none) (str "c1") (str "lbl")
      (by decide) (by decide)).1⟩

/-- C10: the `add` target reference accepts a user mention (yielding the
embedded ID), otherwise accepts any token whose stripped form starts with
`u` or `U` upper-cased wholesale (for example `urgent` becomes target
`URGENT`), and any other token makes `_parse_add_arguments` fail with the
fixed input-error message before any channel work happens. -/
theorem claim_C10_target_resolution
    (lookup : Str → Option Str) (channel_groups : Str → Option (List Str))
    (idTail label t : Str) (args : List Str) :
    (idTail ≠ [] → (∀ c ∈ idTail, isUserIdChar c = true) →
      resolve_user_identifier ('<' :: '@' :: 'U' :: (idTail ++ ['>'])) = some ('U' :: idTail))
    ∧ (idTail ≠ [] → (∀ c ∈ idTail, isUserIdChar c = true) → label ≠ [] → '>' ∉ label →
      resolve_user_identifier ('<' :: '@' :: 'U' :: (idTail ++ '|' :: (label ++ ['>'])))
        = some ('U' :: idTail))
    ∧ ((pyStrip t).take 1 = ['u'] ∨ (pyStrip t).take 1 = ['U'] →
      resolve_user_identifier t = some (pyUpper (pyStrip t)))
    ∧ resolve_user_identifier (str "urgent") = some (str "URGENT")
    ∧ (resolve_user_identifier t = none →
      parse_add_arguments lookup channel_groups (t :: args) =
        Except.error
          (str "Couldn't understand which bot to invite. Mention it or provide the user ID.")) := by
  refine ⟨fun hne hall => resolve_user_mention_id idTail hne hall,
    fun hne hall hlne hlgt => resolve_user_mention_id_label idTail label hne hall hlne hlgt,
    fun h => resolve_user_upper_u t h,
    by decide,
    fun h => ?_⟩
  simp only [parse_add_arguments, h]

/-- C2: `_invite_bot_to_channels` yields exactly one outcome line per input
channel, at the input position of that channel, computed by the per-channel
join-then-invite loop from that channel alone; replacing the join/invite
behaviour of every other channel (and the target) never changes a
channel's outcome line. -/
theorem claim_C2_outcome_independence
    (parseHint : Str → Option Int) (joinF inviteF joinF2 inviteF2 : Str → Nat → ApiResult)
    (target target2 : Str) (channel_ids : List Str) :
    (invite_bot_to_channels parseHint joinF inviteF target channel_ids).length
      = channel_ids.length
    ∧ (∀ i (hi : i < channel_ids.length),
        (invite_bot_to_channels parseHint joinF inviteF target channel_ids)[i]? =
          some (invite_channel_loop parseHint (joinF channel_ids[i]) (inviteF channel_ids[i])
            channel_ids[i] 1 none))
    ∧ (∀ i (hi : i < channel_ids.length),
        joinF channel_ids[i] = joinF2 channel_ids[i] →
        inviteF channel_ids[i] = inviteF2 channel_ids[i] →
        (invite_bot_to_channels parseHint joinF inviteF target channel_ids)[i]? =
          (invite_bot_to_channels parseHint joinF2 inviteF2 target2 channel_ids)[i]?) := by
  refine ⟨List.length_map _ _, fun i hi => ?_, fun i hi h1 h2 => ?_⟩
  · rw [invite_bot_to_channels, List.getElem?_map, List.getElem?_eq_getElem hi]
    rfl
  · rw [invite_bot_to_channels, invite_bot_to_channels, List.getElem?_map, List.getElem?_map,
      List.getElem?_eq_getElem hi]
    simp only [Option.map_some']
    rw [h1, h2]

theorem claim_C2_witness :
    (invite_bot_to_channels (fun _ => none) (fun _ _ => ApiResult.ok) (fun _ _ => ApiResult.ok)
      (str "U1") [str "C12345678"]).length = 1
    ∧ (invite_bot_to_channels (fun _ => none) (fun _ _ => ApiResult.ok) (fun _ _ => ApiResult.ok)
        (str "U1") [str "C12345678"])[0]? =
      (invite_bot_to_channels (fun _ => none) (fun _ _ => ApiResult.ok) (fun _ _ => ApiResult.ok)
        (str "U2") [str "C12345678"])[0]? :=
  ⟨(claim_C2_outcome_independence (fun _ => none) (fun _ _ => ApiResult.ok)
      (fun _ _ => ApiResult.ok) (fun _ _ => ApiResult.ok) (fun _ _ => ApiResult.ok)
      (str "U1") (str "U2") [str "C12345678"]).1,
   (claim_C2_outcome_independence (fun _ => none) (fun _ _ => ApiResult.ok)
      (fun _ _ => ApiResult.ok) (fun _ _ => ApiResult.ok) (fun _ _ => ApiResult.ok)
      (str "U1") (str "U2") [str "C12345678"]).2.2 0 (by decide) rfl rfl⟩

/-- C8: a `users_info` / `conversations_info` failure that is neither a
recoverable rate limit nor `missing_scope` makes the check fail closed:
the user/channel is reported restricted/external with the fixed generic
verification-failure message, which differs from the missing-permission
messages and from the fixed denial messages, and never carries the remote
error code. -/
theorem claim_C8_lookup_failure_fails_closed
    (parseHint : Str → Option Int)
    (usersInfo : Nat → Except SlackApiError UserFlags)
    (convInfo : Nat → Except SlackApiError ChannelFlags)
    (ucache : List (Str × UserFlags)) (ccache : List (Str × ChannelFlags))
    (user_id channel_id : Str) (attempt : Nat) (exc exc2 : SlackApiError) :
    (usersInfo attempt = Except.error exc →
      handle_rate_limit parseHint exc attempt = none →
      exc.errorCode ≠ some (str "missing_scope") →
      is_guest_user_loop parseHint usersInfo attempt
        = ((true, some guestVerifyFailedMessage), none))
    ∧ (convInfo attempt = Except.error exc2 →
      handle_rate_limit parseHint exc2 attempt = none →
      exc2.errorCode ≠ some (str "missing_scope") →
      is_external_channel_loop parseHint convInfo attempt
        = ((true, some channelVerifyFailedMessage), none))
    ∧ (lookupAssoc ucache user_id = none →
      usersInfo 1 = Except.error exc →
      handle_rate_limit parseHint exc 1 = none →
      exc.errorCode ≠ some (str "missing_scope") →
      is_guest_user parseHint usersInfo ucache user_id
        = ((true, some guestVerifyFailedMessage), ucache))
    ∧ (channel_id.take 1 ≠ ['D'] →
      lookupAssoc ccache channel_id = none →
      convInfo 1 = Except.error exc2 →
      handle_rate_limit parseHint exc2 1 = none →
      exc2.errorCode ≠ some (str "missing_scope") →
      is_external_channel parseHint convInfo ccache channel_id
        = ((true, some channelVerifyFailedMessage), ccache))
    ∧ guestVerifyFailedMessage ≠ guestScopeMessage
    ∧ guestVerifyFailedMessage ≠ guestDenialMessage
    ∧ channelVerifyFailedMessage ≠ channelScopeMessage
    ∧ channelVerifyFailedMessage ≠ externalDenialMessage
    ∧ guestVerifyFailedMessage ≠ channelVerifyFailedMessage := by
  have hguest : ∀ (a : Nat) (e : SlackApiError), usersInfo a = Except.error e →
      handle_rate_limit parseHint e a = none → e.errorCode ≠ some (str "missing_scope") →
      is_guest_user_loop parseHint usersInfo a
        = ((true, some guestVerifyFailedMessage), none) := by
    intro a e h1 h2 h3
    unfold is_guest_user_loop
    simp only [h1]
    split
    · rename_i w hw
      rw [h2] at hw
      cases hw
    · rw [if_neg h3]
  have hchan : ∀ (a : Nat) (e : SlackApiError), convInfo a = Except.error e →
      handle_rate_limit parseHint e a = none → e.errorCode ≠ some (str "missing_scope") →
      is_external_channel_loop parseHint convInfo a
        = ((true, some channelVerifyFailedMessage), none) := by
    intro a e h1 h2 h3
    unfold is_external_channel_loop
    simp only [h1]
    split
    · rename_i w hw
      rw [h2] at hw
      cases hw
    · rw [if_neg h3]
  refine ⟨hguest attempt exc, hchan attempt exc2, ?_, ?_,
    by decide, by decide, by decide, by decide, by decide⟩
  · intro hc h1 h2 h3
    unfold is_guest_user
    simp only [hc, hguest 1 exc h1 h2 h3]
  · intro hd hc h1 h2 h3
    unfold is_external_channel
    rw [if_neg hd]
    simp only [hc, hchan 1 exc2 h1 h2 h3]

theorem claim_C8_witness :
    is_guest_user_loop (fun _ => none) (fun _ => Except.error ⟨none, some (str "fatal_error"), []⟩) 1
      = ((true, some guestVerifyFailedMessage), none)
    ∧ is_external_channel_loop (fun _ => none)
        (fun _ => Except.error ⟨none, some (str "fatal_error"), []⟩) 1
      = ((true, some channelVerifyFailedMessage), none) :=
  ⟨(claim_C8_lookup_failure_fails_closed (fun _ => none)
      (fun _ => Except.error ⟨none, some (str "fatal_error"), []⟩)
      (fun _ => Except.error ⟨none, some (str "fatal_error"), []⟩)
      [] [] (str "U1") (str "C1") 1
      ⟨none, some (str "fatal_error"), []⟩ ⟨none, some (str "fatal_error"), []⟩).1
      rfl (by decide) (by decide),
   (claim_C8_lookup_failure_fails_closed (fun _ => none)
      (fun _ => Except.error ⟨none, some (str "fatal_error"), []⟩)
      (fun _ => Except.error ⟨none, some (str "fatal_error"), []⟩)
      [] [] (str "U1") (str "C1") 1
      ⟨none, some (str "fatal_error"), []⟩ ⟨none, some (str "fatal_error"), []⟩).2.1
      rfl (by decide) (by decide)⟩

theorem ccOf_append (b1 b2 : List Str) : ccOf (b1 ++ b2) = ccOf b1 + ccOf b2 := by
  simp [ccOf]

theorem load_step_empty_groups (f : JValue → Str) (st : LoadState) (e : Str × JValue) :
    (load_step f st e).empty_groups
      = st.empty_groups ++ (if badEntry e then [e.1] else []) := by
  rcases e with ⟨name, v⟩
  unfold load_step badEntry
  cases v with
  | jnull => simp
  | jbool b => simp
  | jnum n => simp
  | jstr s => simp
  | jlist items =>
    by_cases hf : (items.filter truthy).isEmpty
    · have hm : (items.filter truthy).map f = [] := by
        rw [List.isEmpty_iff] at hf
        rw [hf]
        rfl
      simp [hm, hf]
    · have hm : (items.filter truthy).map f ≠ [] := by
        rw [List.isEmpty_iff] at hf
        exact fun h => hf (List.map_eq_nil_iff.mp h)
      simp [hm, hf]
  | jdict fields =>
    cases hch : lookupAssoc fields (str "channels") with
    | none =>
      cases hd : lookupAssoc fields (str "description") with
      | none => simp [hch, hd]
      | some dv => cases dv <;> simp [hch, hd]
    | some cv =>
      cases cv with
      | jlist items =>
        by_cases hf : (items.filter truthy).isEmpty
        · have hm : (items.filter truthy).map f = [] := by
            rw [List.isEmpty_iff] at hf
            rw [hf]
            rfl
          cases hd : lookupAssoc fields (str "description") with
          | none => simp [hch, hd, hm, hf]
          | some dv => cases dv <;> simp [hch, hd, hm, hf]
        · have hm : (items.filter truthy).map f ≠ [] := by
            rw [List.isEmpty_iff] at hf
            exact fun h => hf (List.map_eq_nil_iff.mp h)
          cases hd : lookupAssoc fields (str "description") with
          | none => simp [hch, hd, hm, hf]
          | some dv => cases dv <;> simp [hch, hd, hm, hf]
      | jnull => cases hd : lookupAssoc fields (str "description") with
        | none => simp [hch, hd]
        | some dv => cases dv <;> simp [hch, hd]
      | jbool b => cases hd : lookupAssoc fields (str "description") with
        | none => simp [hch, hd]
        | some dv => cases dv <;> simp [hch, hd]
      | jnum n => cases hd : lookupAssoc fields (str "description") with
        | none => simp [hch, hd]
        | some dv => cases dv <;> simp [hch, hd]
      | jstr s => cases hd : lookupAssoc fields (str "description") with
        | none => simp [hch, hd]
        | some dv => cases dv <;> simp [hch, hd]
      | jdict kv => cases hd : lookupAssoc fields (str "description") with
        | none => simp [hch, hd]
        | some dv => cases dv <;> simp [hch, hd]

theorem load_foldl_empty_groups (f : JValue → Str) (data : List (Str × JValue)) :
    ∀ st : LoadState, (data.foldl (load_step f) st).empty_groups
      = st.empty_groups ++ (data.filter badEntry).map Prod.fst := by
  induction data with
  | nil => intro st; simp
  | cons e rest ih =>
    intro st
    rw [List.foldl_cons, ih, List.filter_cons]
    by_cases hb : badEntry e
    · rw [if_pos hb, load_step_empty_groups, if_pos hb]
      simp
    · rw [if_neg hb, load_step_empty_groups, if_neg hb]
      simp

theorem joinWith_newline_length (B : List Str) (h : B ≠ []) :
    (joinWith (str "\n") B).length + 1 = ccOf B := by
  induction B with
  | nil => exact absurd rfl h
  | cons x rest ih =>
    cases rest with
    | nil => simp [joinWith, ccOf]
    | cons y rest2 =>
      rw [joinWith]
      have ihr := ih (by simp)
      simp only [List.length_append, ccOf, List.map_cons, List.sum_cons] at ihr ⊢
      have hnl : (str "\n").length = 1 := by decide
      rw [hnl]
      omega

theorem send_batches_loop_bounds (ls : List Str) :
    ∀ (batch : List Str) (cc : Nat),
      (∀ l ∈ ls, (pyStrip l).length ≤ 3500) →
      cc = ccOf batch → cc ≤ 3501 → batch.length ≤ 40 →
      ∀ B ∈ send_batches_loop batch cc ls, ccOf B ≤ 3501 ∧ B.length ≤ 40 := by
  induction ls with
  | nil =>
    intro batch cc _ hcc hcc2 hlen B hB
    rw [send_batches_loop] at hB
    by_cases hb : batch = []
    · rw [if_pos hb] at hB
      cases hB
    · rw [if_neg hb] at hB
      rcases List.mem_singleton.mp hB with rfl
      exact ⟨hcc ▸ hcc2, hlen⟩
  | cons l ls ih =>
    intro batch cc hls hcc hcc2 hlen B hB
    rw [send_batches_loop] at hB
    by_cases hs : pyStrip l = []
    · rw [if_pos hs] at hB
      exact ih batch cc (fun x hx => hls x (List.mem_cons_of_mem _ hx)) hcc hcc2 hlen B hB
    · rw [if_neg hs] at hB
      by_cases hcond : 3500 < cc + (pyStrip l).length + 1 ∨ 40 ≤ batch.length
      · rw [if_pos hcond] at hB
        rcases List.mem_cons.mp hB with rfl | hB2
        · exact ⟨hcc ▸ hcc2, hlen⟩
        · refine ih [pyStrip l] ((pyStrip l).length + 1)
            (fun x hx => hls x (List.mem_cons_of_mem _ hx)) (by simp [ccOf]) ?_ (by simp) B hB2
          have := hls l (List.mem_cons_self _ _)
          omega
      · rw [if_neg hcond] at hB
        push_neg at hcond
        refine ih (batch ++ [pyStrip l]) (cc + (pyStrip l).length + 1)
          (fun x hx => hls x (List.mem_cons_of_mem _ hx)) ?_ (by omega) ?_ B hB
        · rw [ccOf_append, ← hcc]
          simp [ccOf]
          omega
        · rw [List.length_append]
          simp
          omega

theorem send_batches_loop_join (ls : List Str) :
    ∀ (batch : List Str) (cc : Nat),
      (send_batches_loop batch cc ls).flatten
        = batch ++ (ls.map pyStrip).filter (fun s => decide (s ≠ [])) := by
  induction ls with
  | nil =>
    intro batch cc
    rw [send_batches_loop]
    by_cases hb : batch = []
    · rw [if_pos hb, hb]
      simp
    · rw [if_neg hb]
      simp
  | cons l ls ih =>
    intro batch cc
    rw [send_batches_loop]
    by_cases hs : pyStrip l = []
    · rw [if_pos hs, ih]
      simp [hs]
    · by_cases hcond : 3500 < cc + (pyStrip l).length + 1 ∨ 40 ≤ batch.length
      · rw [if_neg hs, if_pos hcond]
        simp only [List.flatten_cons, ih]
        simp [hs]
      · rw [if_neg hs, if_neg hcond, ih]
        simp [hs]

theorem extractLoop_append (lookup : Str → Option Str)
    (channel_groups : Str → Option (List Str)) (l1 l2 : List Str) :
    extractLoop lookup channel_groups (l1 ++ l2) =
      ((extractLoop lookup channel_groups l1).1 ++ (extractLoop lookup channel_groups l2).1,
       (extractLoop lookup channel_groups l1).2.1
         ++ (extractLoop lookup channel_groups l2).2.1,
       (extractLoop lookup channel_groups l1).2.2.1
         ++ (extractLoop lookup channel_groups l2).2.2.1,
       (extractLoop lookup channel_groups l1).2.2.2
         ++ (extractLoop lookup channel_groups l2).2.2.2) := by
  induction l1 with
  | nil => simp [extractLoop]
  | cons t ts ih =>
    simp only [List.cons_append, extractLoop, List.append_eq, ih, List.append_assoc]

theorem dedupFirst_duplicate_block {α : Type} [DecidableEq α] (A X B C : List α) :
    dedupFirst (A ++ (X ++ (B ++ (X ++ C)))) = dedupFirst (A ++ (X ++ (B ++ C))) := by
  have h1 : A ++ (X ++ (B ++ (X ++ C))) = (A ++ (X ++ B)) ++ X ++ C := by
    simp [List.append_assoc]
  have h2 : (A ++ (X ++ B)) ++ C = A ++ (X ++ (B ++ C)) := by
    simp [List.append_assoc]
  rw [h1, dedupFirst_append_block _ X C (fun x hx => by simp [hx]), h2]

/-- C3 counterexample: with group `g` whose sole member `x` is
unresolvable, the duplicate group tokens `G` and `g` name the same
(case-insensitive) group, yet the empty-group list records two entries and
the missing-in-group list records two "missing" entries — one per token
spelling — contradicting "at most one entry for that group". -/
theorem claim_C3_counterexample :
    pyLower (str "G") = pyLower (str "g")
    ∧ (extract_channel_ids (fun _ => none)
        (fun s => if s = str "g" then some [str "x"] else none)
        [str "G", str "g"]).2.2.1 = [str "G", str "g"]
    ∧ (extract_channel_ids (fun _ => none)
        (fun s => if s = str "g" then some [str "x"] else none)
        [str "G", str "g"]).2.2.2 = [str "G -> x", str "g -> x"]
    ∧ 2 ≤ ((extract_channel_ids (fun _ => none)
        (fun s => if s = str "g" then some [str "x"] else none)
        [str "G", str "g"]).2.2.1).length :=
  ⟨by decide, by decide, by decide, by decide⟩

/-- C3 amended: the four lists `_extract_channel_ids` returns are each
duplicate-free (so textually identical duplicate tokens — however often
and in whatever order they recur — contribute one channel block, one
empty-group entry and one missing entry, and the channel list never holds
a duplicate ID), and repeating an identical token anywhere later in the
input leaves the result unchanged.  What fails in the original claim is
only the cross-spelling part: group tokens that differ in case produce
separate empty-group/missing entries, as the counterexample shows. -/
theorem claim_C3_dedup_amended (lookup : Str → Option Str)
    (channel_groups : Str → Option (List Str)) :
    (∀ raw_tokens : List Str,
      (extract_channel_ids lookup channel_groups raw_tokens).1.Nodup
      ∧ (extract_channel_ids lookup channel_groups raw_tokens).2.1.Nodup
      ∧ (extract_channel_ids lookup channel_groups raw_tokens).2.2.1.Nodup
      ∧ (extract_channel_ids lookup channel_groups raw_tokens).2.2.2.Nodup)
    ∧ (∀ (ts1 ts2 ts3 : List Str) (t : Str),
      extract_channel_ids lookup channel_groups (ts1 ++ t :: (ts2 ++ t :: ts3))
        = extract_channel_ids lookup channel_groups (ts1 ++ t :: (ts2 ++ ts3))) := by
  constructor
  · intro raw_tokens
    unfold extract_channel_ids
    simp only [pyDedup_eq_dedupFirst]
    exact ⟨nodup_dedupFirst _, nodup_dedupFirst _, nodup_dedupFirst _, nodup_dedupFirst _⟩
  · intro ts1 ts2 ts3 t
    unfold extract_channel_ids
    simp only [pyDedup_eq_dedupFirst]
    have hcons : ∀ ts : List Str, extractLoop lookup channel_groups (t :: ts) =
        ((tokenContrib lookup channel_groups t).1 ++ (extractLoop lookup channel_groups ts).1,
         (tokenContrib lookup channel_groups t).2.1
           ++ (extractLoop lookup channel_groups ts).2.1,
         (tokenContrib lookup channel_groups t).2.2.1
           ++ (extractLoop lookup channel_groups ts).2.2.1,
         (tokenContrib lookup channel_groups t).2.2.2
           ++ (extractLoop lookup channel_groups ts).2.2.2) := by
      intro ts
      simp only [extractLoop]
    simp only [extractLoop_append, hcons]
    exact congrArg₂ _ (dedupFirst_duplicate_block _ _ _ _)
      (congrArg₂ _ (dedupFirst_duplicate_block _ _ _ _)
        (congrArg₂ _ (dedupFirst_duplicate_block _ _ _ _)
          (dedupFirst_duplicate_block _ _ _ _)))

theorem parse_add_cons_eq (lookup : Str → Option Str)
    (channel_groups : Str → Option (List Str)) (arg0 : Str) (tokens : List Str) (tb : Str)
    (hres : resolve_user_identifier arg0 = some tb) (hne : tokens ≠ []) :
    parse_add_arguments lookup channel_groups (arg0 :: tokens) =
      (if addErrors lookup channel_groups tokens ≠ []
       then Except.error (joinWith (str "\n") (addErrors lookup channel_groups tokens))
       else if (extract_channel_ids lookup channel_groups tokens).1 = []
       then Except.error (str "Please name channel group(s) and/or channel names.")
       else Except.ok (tb, (extract_channel_ids lookup channel_groups tokens).1)) := by
  simp only [parse_add_arguments, hres]
  rw [if_neg hne]

theorem extract_head_nonempty (lookup : Str → Option Str)
    (channel_groups : Str → Option (List Str)) (t : Str) (ts : List Str) :
    ¬((extract_channel_ids lookup channel_groups (t :: ts)).1 = []
      ∧ (extract_channel_ids lookup channel_groups (t :: ts)).2.1 = []
      ∧ (extract_channel_ids lookup channel_groups (t :: ts)).2.2.1 = []) := by
  rintro ⟨h1, h2, h3⟩
  have hnil : ∀ X : List Str, pyDedup X = [] → X = [] := by
    intro X hX
    rw [pyDedup_eq_dedupFirst] at hX
    exact (dedupFirst_eq_nil_iff X).mp hX
  have e1 : (tokenContrib lookup channel_groups t).1
      ++ (extractLoop lookup channel_groups ts).1 = [] := hnil _ h1
  have e2 : (tokenContrib lookup channel_groups t).2.1
      ++ (extractLoop lookup channel_groups ts).2.1 = [] := hnil _ h2
  have e3 : (tokenContrib lookup channel_groups t).2.2.1
      ++ (extractLoop lookup channel_groups ts).2.2.1 = [] := hnil _ h3
  rw [List.append_eq_nil] at e1 e2 e3
  have hc1 := e1.1
  have hc2 := e2.1
  have hc3 := e3.1
  unfold tokenContrib at hc1 hc2 hc3
  cases hg : channel_groups (pyLower t) with
  | some raw =>
    simp only [hg] at hc1 hc3
    by_cases hgc : (resolve_group_channels lookup (pyLower t) channel_groups).1 = []
    · rw [if_pos hgc] at hc3
      cases hc3
    · exact hgc hc1
  | none =>
    simp only [hg] at hc1 hc2
    cases hr : resolve_channel_identifier lookup t with
    | some cid =>
      simp only [hr] at hc1
      cases hc1
    | none =>
      simp only [hr] at hc2
      cases hc2

/-- C1: over a non-empty token list with a resolvable target, the add
parser raises exactly one aggregated failure — its message the
newline-join of the messages of the non-empty error categories — if and
only if the unknown-token, empty-group or missing-in-group list is
non-empty or the net resolved channel set is empty; otherwise it returns
the target and the resolved channel list.  When no category has errors
the resolved set is automatically non-empty, so every raise carries the
aggregated category message. -/
theorem claim_C1_add_error_aggregation (lookup : Str → Option Str)
    (channel_groups : Str → Option (List Str)) (arg0 : Str) (tokens : List Str)
    (target_bot : Str)
    (hres : resolve_user_identifier arg0 = some target_bot) (hne : tokens ≠ []) :
    ((∃ m, parse_add_arguments lookup channel_groups (arg0 :: tokens) = Except.error m)
      ↔ ((extract_channel_ids lookup channel_groups tokens).2.1 ≠ []
         ∨ (extract_channel_ids lookup channel_groups tokens).2.2.1 ≠ []
         ∨ (extract_channel_ids lookup channel_groups tokens).2.2.2 ≠ []
         ∨ (extract_channel_ids lookup channel_groups tokens).1 = []))
    ∧ (((extract_channel_ids lookup channel_groups tokens).2.1 ≠ []
        ∨ (extract_channel_ids lookup channel_groups tokens).2.2.1 ≠ []
        ∨ (extract_channel_ids lookup channel_groups tokens).2.2.2 ≠ []) →
        parse_add_arguments lookup channel_groups (arg0 :: tokens)
          = Except.error (joinWith (str "\n") (addErrors lookup channel_groups tokens)))
    ∧ ((extract_channel_ids lookup channel_groups tokens).2.1 = [] →
       (extract_channel_ids lookup channel_groups tokens).2.2.1 = [] →
       (extract_channel_ids lookup channel_groups tokens).2.2.2 = [] →
        (extract_channel_ids lookup channel_groups tokens).1 ≠ []
        ∧ parse_add_arguments lookup channel_groups (arg0 :: tokens)
            = Except.ok (target_bot, (extract_channel_ids lookup channel_groups tokens).1)) := by
  rw [parse_add_cons_eq lookup channel_groups arg0 tokens target_bot hres hne]
  by_cases hor : (extract_channel_ids lookup channel_groups tokens).2.1 ≠ []
      ∨ (extract_channel_ids lookup channel_groups tokens).2.2.1 ≠ []
      ∨ (extract_channel_ids lookup channel_groups tokens).2.2.2 ≠ []
  · have herr : addErrors lookup channel_groups tokens ≠ [] := by
      unfold addErrors
      intro hcontra
      simp only [List.append_assoc, List.append_eq_nil] at hcontra
      obtain ⟨hA, hB, hC⟩ := hcontra
      rcases hor with h | h | h
      · rw [if_neg h] at hA
        cases hA
      · rw [if_neg h] at hB
        cases hB
      · rw [if_neg h] at hC
        cases hC
    rw [if_pos herr]
    refine ⟨⟨fun _ => ?_, fun _ => ⟨_, rfl⟩⟩, fun _ => rfl, fun h1 h2 h3 => ?_⟩
    · rcases hor with h | h | h
      · exact Or.inl h
      · exact Or.inr (Or.inl h)
      · exact Or.inr (Or.inr (Or.inl h))
    · rcases hor with h | h | h
      · exact absurd h1 h
      · exact absurd h2 h
      · exact absurd h3 h
  · push_neg at hor
    obtain ⟨h1, h2, h3⟩ := hor
    have herr : addErrors lookup channel_groups tokens = [] := by
      unfold addErrors
      simp [h1, h2, h3]
    rw [if_neg (fun hh => hh herr)]
    have hcs : (extract_channel_ids lookup channel_groups tokens).1 ≠ [] := by
      cases tokens with
      | nil => exact absurd rfl hne
      | cons t ts =>
        intro hnil
        exact extract_head_nonempty lookup channel_groups t ts ⟨hnil, h1, h2⟩
    rw [if_neg hcs]
    refine ⟨⟨?_, ?_⟩, ?_, fun _ _ _ => ⟨hcs, rfl⟩⟩
    · rintro ⟨m, hm⟩
      cases hm
    · rintro (h | h | h | h)
      · exact absurd h1 h
      · exact absurd h2 h
      · exact absurd h3 h
      · exact absurd h hcs
    · rintro (h | h | h)
      · exact absurd h1 h
      · exact absurd h2 h
      · exact absurd h3 h

theorem claim_C1_witness :
    parse_add_arguments (fun _ => none) (fun _ => none) [str "u1", str "zzz"]
      = Except.error
          (joinWith (str "\n") (addErrors (fun _ => none) (fun _ => none) [str "zzz"])) :=
  (claim_C1_add_error_aggregation (fun _ => none) (fun _ => none) (str "u1") [str "zzz"]
     (str "U1") rfl (List.cons_ne_nil _ _)).2.1 (Or.inl (by decide))

/-- C7: whenever `_parse_add_arguments` succeeds, the channel list handed
to the Invitation Orchestrator is the first-occurrence deduplication of
the in-order resolution sequence produced over the tokens: it has no
duplicates, is a subsequence of the resolution sequence (so first-seen
order is preserved), contains exactly the resolved identifiers, and equals
`dict.fromkeys` applied to that sequence. -/
theorem claim_C7_resolved_set_invariant (lookup : Str → Option Str)
    (channel_groups : Str → Option (List Str)) (args : List Str)
    (target : Str) (ids : List Str)
    (h : parse_add_arguments lookup channel_groups args = Except.ok (target, ids)) :
    ids.Nodup
    ∧ ids = pyDedup (extractLoop lookup channel_groups args.tail).1
    ∧ ids.Sublist (extractLoop lookup channel_groups args.tail).1
    ∧ (∀ x, x ∈ ids ↔ x ∈ (extractLoop lookup channel_groups args.tail).1) := by
  cases args with
  | nil => simp [parse_add_arguments] at h
  | cons arg0 tokens =>
    cases hres : resolve_user_identifier arg0 with
    | none =>
      simp only [parse_add_arguments, hres] at h
      simp at h
    | some tb =>
      by_cases htok : tokens = []
      · subst htok
        simp only [parse_add_arguments, hres, if_pos] at h
        simp at h
      · rw [parse_add_cons_eq lookup channel_groups arg0 tokens tb hres htok] at h
        split at h
        · simp at h
        · split at h
          · simp at h
          · rw [Except.ok.injEq, Prod.mk.injEq] at h
            obtain ⟨-, hids⟩ := h
            subst hids
            rw [List.tail_cons]
            have hfst : (extract_channel_ids lookup channel_groups tokens).1
                = pyDedup (extractLoop lookup channel_groups tokens).1 := rfl
            rw [hfst, pyDedup_eq_dedupFirst]
            exact ⟨nodup_dedupFirst _, rfl, dedupFirst_sublist _,
              fun x => mem_dedupFirst _ x⟩

theorem claim_C7_witness :
    parse_add_arguments (fun _ => none) (fun _ => none)
      [str "u1", str "C12345678", str "c12345678"]
      = Except.ok (str "U1", [str "C12345678"])
    ∧ ([str "C12345678"].Nodup
       ∧ [str "C12345678"] = pyDedup (extractLoop (fun _ => none) (fun _ => none)
           [str "u1", str "C12345678", str "c12345678"].tail).1
       ∧ [str "C12345678"].Sublist (extractLoop (fun _ => none) (fun _ => none)
           [str "u1", str "C12345678", str "c12345678"].tail).1
       ∧ (∀ x, x ∈ [str "C12345678"] ↔ x ∈ (extractLoop (fun _ => none) (fun _ => none)
           [str "u1", str "C12345678", str "c12345678"].tail).1)) :=
  ⟨rfl,
   claim_C7_resolved_set_invariant (fun _ => none) (fun _ => none)
     [str "u1", str "C12345678", str "c12345678"] (str "U1") [str "C12345678"] rfl⟩

/-- C4 counterexample: the configuration mapping with the single entry
`"g": 42` (a malformed, non-dict, non-list group value) makes the whole
load raise the missing-channel-entries failure, where the claim says a
malformed entry is dropped with a warning and does not make the load
fail. -/
theorem claim_C4_counterexample :
    load_channel_groups (fun _ => []) [(str "g", JValue.jnum 42)]
      = Except.error (str "Channel groups missing channel entries: g") := by
  rfl

/-- C4 amended: `_load_channel_groups` fails exactly when some entry of the
configuration mapping is bad — its value neither a list nor a dict, a
dict whose `channels` field is not a list, or a channel list with no
truthy entry — and the failure message lists all such group names; only a
mapping with no bad entry loads successfully.  Malformed shapes are thus
fatal exactly like zero-channel groups, not dropped as warnings. -/
theorem claim_C4_loader_amended (f : JValue → Str) (data : List (Str × JValue)) :
    ((∃ m, load_channel_groups f data = Except.error m) ↔ ∃ e ∈ data, badEntry e)
    ∧ (data.filter badEntry ≠ [] →
        load_channel_groups f data = Except.error
          (str "Channel groups missing channel entries: "
            ++ joinWith (str ", ") ((data.filter badEntry).map Prod.fst)))
    ∧ ((∀ e ∈ data, ¬ badEntry e) →
        ∃ g d dn, load_channel_groups f data = Except.ok (g, d, dn)) := by
  have hempty : (data.foldl (load_step f) ⟨[], [], [], []⟩).empty_groups
      = (data.filter badEntry).map Prod.fst := by
    rw [load_foldl_empty_groups]
    rfl
  unfold load_channel_groups
  by_cases hb : data.filter badEntry = []
  · have hnone : ∀ e ∈ data, ¬ badEntry e := by
      intro e he
      exact List.filter_eq_nil_iff.mp hb e he
    rw [if_neg (by rw [hempty, hb]; simp)]
    refine ⟨?_, fun h => absurd hb h, fun _ => ⟨_, _, _, rfl⟩⟩
    constructor
    · rintro ⟨m, hm⟩
      cases hm
    · rintro ⟨e, he, hbe⟩
      exact absurd hbe (hnone e he)
  · rw [if_pos (by rw [hempty]; intro h; exact hb (List.map_eq_nil_iff.mp h))]
    refine ⟨⟨fun _ => ?_, fun _ => ⟨_, rfl⟩⟩, fun _ => by rw [hempty], fun hall => ?_⟩
    · rcases hcons : data.filter badEntry with _ | ⟨e, rest⟩
      · exact absurd hcons hb
      · have he : e ∈ data.filter badEntry := by
          rw [hcons]
          exact List.mem_cons_self _ _
        exact ⟨e, List.mem_of_mem_filter he, List.of_mem_filter he⟩
    · exact absurd (List.filter_eq_nil_iff.mpr hall) hb

theorem claim_C4_amended_witness :
    ([(str "g", JValue.jnum 42)].filter badEntry ≠ [])
    ∧ load_channel_groups (fun _ => []) [(str "g", JValue.jnum 42)]
        = Except.error
          (str "Channel groups missing channel entries: "
            ++ joinWith (str ", ")
              (([(str "g", JValue.jnum 42)].filter badEntry).map Prod.fst)) := by
  have hf : [(str "g", JValue.jnum 42)].filter badEntry = [(str "g", JValue.jnum 42)] := rfl
  refine ⟨by rw [hf]; exact List.cons_ne_nil _ _, ?_⟩
  exact (claim_C4_loader_amended (fun _ => []) [(str "g", JValue.jnum 42)]).2.1
    (by rw [hf]; exact List.cons_ne_nil _ _)

/-- C5 counterexample: the input consisting of the line `" a"` followed by
a single 3501-character line makes `_send_batched_messages` emit the
3501-character line as one batch, exceeding the 3500-character budget, and
the first emitted line is the stripped `"a"`, not the input line `" a"`. -/
theorem pyStrip_replicate_a (n : Nat) : pyStrip (List.replicate n 'a') = List.replicate n 'a' := by
  refine pyStrip_eq_self _ (fun c hc => ?_) (fun c hc => ?_)
  · rw [List.head?_replicate] at hc
    by_cases hn : n = 0
    · rw [if_pos hn] at hc
      cases hc
    · rw [if_neg hn] at hc
      cases hc
      decide
  · rw [← List.head?_reverse, List.reverse_replicate, List.head?_replicate] at hc
    by_cases hn : n = 0
    · rw [if_pos hn] at hc
      cases hc
    · rw [if_neg hn] at hc
      cases hc
      decide

theorem claim_C5_counterexample :
    send_batched_messages [' ' :: str "a", List.replicate 3501 'a']
      = [str "a", List.replicate 3501 'a']
    ∧ 3500 < (List.replicate 3501 'a').length
    ∧ ' ' :: str "a" ≠ str "a" := by
  have hA : pyStrip (List.replicate 3501 'a') = List.replicate 3501 'a' := pyStrip_replicate_a 3501
  have hAlen : (List.replicate 3501 'a').length = 3501 := List.length_replicate 3501 'a'
  have hAne : List.replicate 3501 'a' ≠ [] := by
    intro h
    have := congrArg List.length h
    rw [hAlen] at this
    cases this
  have h1 : pyStrip (' ' :: str "a") = str "a" := by decide
  refine ⟨?_, by rw [hAlen]; decide, by decide⟩
  rw [send_batched_messages, send_batches, if_neg (List.cons_ne_nil _ _)]
  rw [send_batches_loop]
  simp only [h1]
  rw [if_neg (by decide), if_neg (by decide)]
  rw [send_batches_loop]
  simp only [hA]
  rw [if_neg hAne, if_pos (Or.inl (by rw [hAlen]; decide))]
  rw [send_batches_loop, if_neg (List.cons_ne_nil _ _)]
  simp only [List.map_cons, List.map_nil, joinWith]

/-- C5 amended: provided every stripped input line fits the 3500-character
budget on its own, the Reply Batcher never emits a batch whose joined text
exceeds 3500 characters or whose line count exceeds 40, the concatenation
of all emitted batches' lines equals the stripped input lines with blank
(whitespace-only) lines removed, and empty input emits nothing.  (The
source strips each line and never splits a single over-budget line, which
is what the counterexample exploits.) -/
theorem claim_C5_batcher_amended (lines : List Str)
    (hshort : ∀ l ∈ lines, (pyStrip l).length ≤ 3500) :
    (∀ B ∈ send_batches lines, (joinWith (str "\n") B).length ≤ 3500 ∧ B.length ≤ 40)
    ∧ (send_batches lines).flatten = (lines.map pyStrip).filter (fun s => decide (s ≠ []))
    ∧ (lines = [] → send_batched_messages lines = []) := by
  by_cases hl : lines = []
  · subst hl
    exact ⟨fun B hB => by simp [send_batches] at hB, by simp [send_batches], fun _ => rfl⟩
  · refine ⟨fun B hB => ?_, ?_, fun h => absurd h hl⟩
    · rw [send_batches, if_neg hl] at hB
      have hb := send_batches_loop_bounds lines [] 0 hshort (by simp [ccOf]) (by omega)
        (by simp) B hB
      refine ⟨?_, hb.2⟩
      by_cases hBnil : B = []
      · subst hBnil
        simp [joinWith]
      · have := joinWith_newline_length B hBnil
        omega
    · rw [send_batches, if_neg hl]
      rw [send_batches_loop_join lines [] 0]
      simp

theorem claim_C5_amended_witness :
    (∀ l ∈ [str "alpha", str "   ", str "beta"], (pyStrip l).length ≤ 3500)
    ∧ ((∀ B ∈ send_batches [str "alpha", str "   ", str "beta"],
          (joinWith (str "\n") B).length ≤ 3500 ∧ B.length ≤ 40)
       ∧ (send_batches [str "alpha", str "   ", str "beta"]).flatten
           = ([str "alpha", str "   ", str "beta"].map pyStrip).filter (fun s => decide (s ≠ []))
       ∧ ([str "alpha", str "   ", str "beta"] = ([] : List Str) →
           send_batched_messages [str "alpha", str "   ", str "beta"] = [])) :=
  ⟨by decide,
   claim_C5_batcher_amended [str "alpha", str "   ", str "beta"] (by decide)⟩

/-- C6: `_handle_rate_limit` signals a retry exactly when the failure is a
rate-limit signal (status 429 or error code `ratelimited`) and the attempt
count is within the bound of 5; the sleep before a retry is the parsed
`Retry-After` hint floored at 1, a missing header defaulting to the text
"1" and an unparsable hint to 1; every other failure, and a rate-limit
failure past the bound, yields no retry (the error is surfaced to the
caller unchanged). -/
theorem claim_C6_rate_limit_retry
    (parseHint : Str → Option Int) (exc : SlackApiError) (attempt : Nat) :
    ((handle_rate_limit parseHint exc attempt).isSome ↔
      ((exc.status_code = some 429 ∨ exc.errorCode = some (str "ratelimited"))
        ∧ attempt ≤ MAX_RATE_LIMIT_RETRIES))
    ∧ (∀ w, handle_rate_limit parseHint exc attempt = some w →
        w = (match parseHint ((lookupAssoc exc.headers (str "Retry-After")).getD (str "1")) with
             | some v => max 1 v
             | none => 1)
          ∧ 1 ≤ w)
    ∧ ((¬ (exc.status_code = some 429 ∨ exc.errorCode = some (str "ratelimited"))
          ∨ MAX_RATE_LIMIT_RETRIES < attempt) →
        handle_rate_limit parseHint exc attempt = none) := by
  unfold handle_rate_limit
  by_cases hc : exc.status_code = some 429 ∨ exc.errorCode = some (str "ratelimited")
  · rw [if_pos hc]
    by_cases hb : attempt > MAX_RATE_LIMIT_RETRIES
    · rw [if_pos hb]
      refine ⟨by simp [hc]; omega, by simp, fun _ => rfl⟩
    · rw [if_neg hb]
      refine ⟨by simp [hc]; omega, ?_, fun hor => ?_⟩
      · intro w hw
        rw [Option.some_inj] at hw
        subst hw
        constructor
        · rfl
        · cases hp : parseHint ((lookupAssoc exc.headers (str "Retry-After")).getD (str "1")) with
          | none => simp
          | some v => simp [le_max_left]
      · rcases hor with hor | hor
        · exact absurd hc hor
        · exact absurd hor hb
  · rw [if_neg hc]
    refine ⟨by simp [hc], by simp, fun _ => rfl⟩

theorem claim_C6_witness :
    ((handle_rate_limit (fun _ => some 7) ⟨some 429, none, []⟩ 3).isSome = true)
    ∧ handle_rate_limit (fun _ => some 7) ⟨some 429, none, []⟩ 3 = some 7
    ∧ ((7 : Int) =
        (match (fun (_ : Str) => some (7 : Int)) ((lookupAssoc ([] : List (Str × Str)) (str "Retry-After")).getD (str "1")) with
         | some v => max 1 v
         | none => 1) ∧ (1 : Int) ≤ 7) :=
  ⟨by decide,
   by decide,
   (claim_C6_rate_limit_retry (fun _ => some 7) ⟨some 429, none, []⟩ 3).2.1 7 (by decide)⟩

theorem claim_C10_witness :
    resolve_user_identifier (str "nobody") = none
    ∧ parse_add_arguments (fun _ => none) (fun _ => none) [str "nobody"] =
        Except.error
          (str "Couldn't understand which bot to invite. Mention it or provide the user ID.") :=
  ⟨by decide,
   (claim_C10_target_resolution (fun _ => none) (fun _ => none)
      (str "1") (str "l") (str "nobody") []).2.2.2.2 (by decide)⟩

end SlackAdder
